import Mathlib

/-!
Verification of the EPD_1in54 MicroPython e-paper driver
(`epaper1in54.py`, Waveshare 1.54" V2 / SSD1681 panel).

The driver is shallowly embedded: the bit-packed framebuffer is a
`List Nat` of bytes (each `< 256`, the `bytearray` invariant), SPI bus
traffic is a `List BusEvent` trace, and driver state is the `EPDState`
structure mirroring the instance fields of the Python class.  MicroPython
built-ins that are external collaborators (the `framebuf` rasterizer,
file I/O) are modelled as parameters / pre-parsed values; everything the
driver itself computes is translated operation-for-operation from the
source.
-/

namespace Epaper

/-! ### The pixel buffer and the orientation transform of `show` -/

/-- `bytearray` read with default 0; all uses in the driver are in range. -/
def byteGet (buf : List Nat) (i : Nat) : Nat := buf.getD i 0

/-- Reading pixel `(x, y)` from the MONO_HLSB packed buffer, translating
source lines 149-151: `src_index = x // 8 + y * (width // 8)`,
`src_bit = 7 - (x % 8)`, `pixel = (buffer[src_index] >> src_bit) & 0x01`. -/
def getPixel (w : Nat) (buf : List Nat) (x y : Nat) : Nat :=
  (byteGet buf (x / 8 + y * (w / 8)) >>> (7 - x % 8)) &&& 1

/-- The per-pixel coordinate transform of `show` (source lines 153-164):
flips first, then the rotation cases `90`, `180`, `270`, else unchanged. -/
def transformCoord (w h : Nat) (fh fv : Bool) (rot : Nat) (x y : Nat) : Nat × Nat :=
  let tx0 := if fh then w - 1 - x else x
  let ty0 := if fv then h - 1 - y else y
  if rot = 90 then (ty0, w - 1 - tx0)
  else if rot = 180 then (w - 1 - tx0, h - 1 - ty0)
  else if rot = 270 then (h - 1 - ty0, tx0)
  else (tx0, ty0)

/-- Writing one pixel into the output buffer (source lines 166-172):
`dst_index = tx // 8 + ty * (width // 8)`, `dst_bit = 7 - (tx % 8)`, then
`transformed[dst_index] |= (1 << dst_bit)` when the pixel is set, else
`transformed[dst_index] &= ~(1 << dst_bit)`.  On a byte value `< 256` the
Python masked and-assign equals `&&& (255 ^^^ (1 <<< dst_bit))`. -/
def writePixel (w : Nat) (buf : List Nat) (tx ty pix : Nat) : List Nat :=
  let di := tx / 8 + ty * (w / 8)
  let db := 7 - tx % 8
  if pix ≠ 0 then buf.set di (byteGet buf di ||| (1 <<< db))
  else buf.set di (byteGet buf di &&& (255 ^^^ (1 <<< db)))

/-- One iteration of the nested pixel loop of `show`: read the source
pixel, transform its coordinate, write it into the accumulator. -/
def transformStep (w h : Nat) (fh fv : Bool) (rot : Nat) (src acc : List Nat)
    (p : Nat × Nat) : List Nat :=
  writePixel w acc (transformCoord w h fh fv rot p.1 p.2).1
    (transformCoord w h fh fv rot p.1 p.2).2 (getPixel w src p.1 p.2)

/-- The orientation transform of `show` (source lines 146-172):
`transformed = bytearray(len(self.buffer))` then the nested
`for y in range(height): for x in range(width):` loop. -/
def showTransform (w h : Nat) (fh fv : Bool) (rot : Nat) (src : List Nat) : List Nat :=
  (List.range h).foldl
    (fun acc y => (List.range w).foldl
      (fun acc2 x => transformStep w h fh fv rot src acc2 (x, y)) acc)
    (List.replicate src.length 0)

/-- The row `y` of the pixel loop, in iteration order. -/
def rowSeq (w y : Nat) : List (Nat × Nat) := (List.range w).map (fun x => (x, y))

/-- All pixels of the nested loop of `show`, in iteration order
(`y` outer, `x` inner). -/
def pixelSeq (w h : Nat) : List (Nat × Nat) := ((List.range h).map (rowSeq w)).flatten

/-- Two pixel coordinates land on different (byte, bit) slots of the
packed buffer. -/
def slotNe (w : Nat) (t q : Nat × Nat) : Prop :=
  t.1 / 8 + t.2 * (w / 8) ≠ q.1 / 8 + q.2 * (w / 8) ∨ 7 - t.1 % 8 ≠ 7 - q.1 % 8

/-! ### Bus traffic and driver state -/

/-- One observable interaction with the panel: `cmd`/`dataByte`/`dataBuf`
are `send_cmd` / `send_data` SPI writes (source lines 52-70), `reset` is
the RST pulse of `reset` (lines 43-50), `busyWait` a completed
`wait_busy` poll loop (lines 72-77). -/
inductive BusEvent where
  | cmd (b : Nat)
  | dataByte (b : Nat)
  | dataBuf (bs : List Nat)
  | reset
  | busyWait
deriving DecidableEq

/-- The mutable fields of the `EPD_1in54` instance (source lines 23-41)
that the driver logic reads and writes: panel dimensions, the shared
`framebuf` byte buffer, the orientation settings and the dirty flag. -/
structure EPDState where
  width : Nat
  height : Nat
  buffer : List Nat
  flip_horizontal : Bool
  flip_vertical : Bool
  rotation : Nat
  dirty : Bool
deriving DecidableEq

/-- `show(partial)` (source lines 136-182): if not dirty, return with no
bus traffic; otherwise transform the buffer, write RAM (0x24), select the
waveform (0x22 with 0xF7 full / 0xFF partial refresh), activate (0x20),
wait for busy, and clear the dirty flag.  The success path of the busy
wait is modelled (a timeout would raise before `dirty` is cleared). -/
def epdShow (st : EPDState) (part : Bool) : EPDState × List BusEvent :=
  if st.dirty = false then (st, [])
  else
    ({ st with dirty := false },
     [BusEvent.cmd 0x24,
      BusEvent.dataBuf (showTransform st.width st.height st.flip_horizontal
        st.flip_vertical st.rotation st.buffer),
      BusEvent.cmd 0x22,
      BusEvent.dataByte (if part then 0xFF else 0xF7),
      BusEvent.cmd 0x20,
      BusEvent.busyWait])

/-- `clear(color)` (source lines 120-124): overwrite every buffer byte
with `color`, set the dirty flag, then call `self.show()` (full refresh,
`partial=False`). -/
def clear (st : EPDState) (color : Nat) : EPDState × List BusEvent :=
  epdShow { st with buffer := List.replicate st.buffer.length color, dirty := true } false

/-- `set_rotation(angle)` (source lines 126-129): the `assert` admits
only 0/90/180/270; a failing assert raises before any field is written. -/
def set_rotation (st : EPDState) (angle : Nat) : EPDState × Option String :=
  if angle = 0 ∨ angle = 90 ∨ angle = 180 ∨ angle = 270 then
    ({ st with rotation := angle, dirty := true }, none)
  else (st, some "AssertionError")

/-- `set_flip(horizontal, vertical)` (source lines 131-134). -/
def set_flip (st : EPDState) (horizontal vertical : Bool) : EPDState :=
  { st with flip_horizontal := horizontal, flip_vertical := vertical, dirty := true }

/-- `draw_text` (source lines 211-213).  `fb.text` is the external
MicroPython `framebuf` rasterizer mutating the shared buffer; its effect
is the parameter `fbText` (already applied to the call's coordinate,
text and color arguments).  The driver then sets the dirty flag. -/
def draw_text (fbText : List Nat → List Nat) (st : EPDState) : EPDState :=
  { st with buffer := fbText st.buffer, dirty := true }

/-- `draw_rect` (source lines 215-217); `fb.rect` is external, as in
`draw_text`. -/
def draw_rect (fbRect : List Nat → List Nat) (st : EPDState) : EPDState :=
  { st with buffer := fbRect st.buffer, dirty := true }

/-- `draw_fill_rect` (source lines 219-221); `fb.fill_rect` is external. -/
def draw_fill_rect (fbFillRect : List Nat → List Nat) (st : EPDState) : EPDState :=
  { st with buffer := fbFillRect st.buffer, dirty := true }

/-- `draw_line` (source lines 223-225); `fb.line` is external. -/
def draw_line (fbLine : List Nat → List Nat) (st : EPDState) : EPDState :=
  { st with buffer := fbLine st.buffer, dirty := true }

/-- `draw_image(img_buf)` (source lines 227-231): reject a size mismatch
with `ValueError("Image buffer size mismatch")` before any mutation,
else replace the buffer wholesale and set the dirty flag.  The second
component is the raised exception, if any. -/
def draw_image (st : EPDState) (img_buf : List Nat) : EPDState × Option String :=
  if img_buf.length ≠ st.buffer.length then (st, some "Image buffer size mismatch")
  else ({ st with buffer := img_buf, dirty := true }, none)

/-- A PBM file as seen through the byte-stream operations `load_pbm`
performs (source lines 192-204).  File I/O and byte-string tokenization
(`open`, `readline`, `strip`, `split`, `int`) are external built-ins;
the file is modelled by their results: `magic` is the stripped first
line, `width`/`height` the integers parsed from the first line not
starting with `#`, and `data` the remaining raw bytes. -/
structure PBMFile where
  magic : List Nat
  width : Nat
  height : Nat
  data : List Nat

/-- `load_pbm` (source lines 192-205): reject a magic other than `b"P4"`
(bytes `0x50 0x34`) with `ValueError("Unsupported PBM format")`, then a
dimension mismatch with `ValueError("Image size mismatch")`, both before
touching the buffer; on success `buffer[:] = f.read(width*height//8)`
(at most that many bytes are available) and the dirty flag is set. -/
def load_pbm (st : EPDState) (f : PBMFile) : EPDState × Option String :=
  if f.magic ≠ [0x50, 0x34] then (st, some "Unsupported PBM format")
  else if f.width ≠ st.width ∨ f.height ≠ st.height then (st, some "Image size mismatch")
  else ({ st with buffer := f.data.take (st.width * st.height / 8), dirty := true }, none)

/-- `send_cmd` appends one command byte to the bus trace (lines 52-59). -/
def send_cmd (tr : List BusEvent) (c : Nat) : List BusEvent := tr ++ [BusEvent.cmd c]

/-- `send_data` with an `int` argument appends one data byte (lines 61-70). -/
def send_data (tr : List BusEvent) (d : Nat) : List BusEvent := tr ++ [BusEvent.dataByte d]

/-- `init` (source lines 79-118), as the bus trace it produces: reset
pulse, busy wait, SWRESET 0x12, busy wait, driver output control 0x01
with the hardcoded bytes 0xC7 0x00 0x00, data entry mode 0x11/0x01, RAM
X window 0x44 with 0x00 and `width//8 - 1`, RAM Y window 0x45 with the
hardcoded bytes 0xC7 0x00 0x00 0x00, border waveform 0x3C/0x01, 0x18
with 0x80, display update control 0x22 with 0xB1, activate 0x20, busy
wait.  `height` is never read by the source's `init`. -/
def epd_init (width height : Nat) : List BusEvent :=
  let t := [BusEvent.reset, BusEvent.busyWait]
  let t := send_cmd t 0x12
  let t := t ++ [BusEvent.busyWait]
  let t := send_cmd t 0x01
  let t := send_data t 0xC7
  let t := send_data t 0x00
  let t := send_data t 0x00
  let t := send_cmd t 0x11
  let t := send_data t 0x01
  let t := send_cmd t 0x44
  let t := send_data t 0x00
  let t := send_data t (width / 8 - 1)
  let t := send_cmd t 0x45
  let t := send_data t 0xC7
  let t := send_data t 0x00
  let t := send_data t 0x00
  let t := send_data t 0x00
  let t := send_cmd t 0x3C
  let t := send_data t 0x01
  let t := send_cmd t 0x18
  let t := send_data t 0x80
  let t := send_cmd t 0x22
  let t := send_data t 0xB1
  let t := send_cmd t 0x20
  t ++ [BusEvent.busyWait]

/-- The poll loop of `wait_busy` (source lines 72-77) with an injectable
time source: `busyAt t` is the busy-pin level read when the elapsed
milliseconds since `start` equal `t` (the clock advances by the
`time.sleep_ms(50)` of each iteration).  An `Except.error e` is the
`RuntimeError("EPD busy timeout exceeded")` raised when
`ticks_diff(ticks_ms(), start) > timeout_ms`, carrying the elapsed time
`e` observed at the raise. -/
def wait_busy_go (busyAt : Nat → Nat) (timeout_ms elapsed : Nat) : Except Nat Unit :=
  if busyAt elapsed = 1 then
    if timeout_ms < elapsed then Except.error elapsed
    else wait_busy_go busyAt timeout_ms (elapsed + 50)
  else Except.ok ()
termination_by timeout_ms + 1 - elapsed
decreasing_by omega

/-- `wait_busy(timeout_ms)`: the poll loop started at elapsed time 0. -/
def wait_busy (busyAt : Nat → Nat) (timeout_ms : Nat) : Except Nat Unit :=
  wait_busy_go busyAt timeout_ms 0

/-- A concrete 8x8 driver state used to instantiate the theorems. -/
def st8 : EPDState :=
  { width := 8, height := 8, buffer := List.replicate 8 0,
    flip_horizontal := false, flip_vertical := false, rotation := 0, dirty := false }

/-! ### Bit-level lemmas about pixel reads and writes -/

theorem shiftRight_and_one (b k : Nat) :
    (b >>> k) &&& 1 = if b.testBit k then 1 else 0 := by
  rw [Nat.and_one_is_mod, Nat.shiftRight_eq_div_pow, Nat.testBit_to_div_mod]
  rcases Nat.mod_two_eq_zero_or_one (b / 2 ^ k) with h | h <;> simp [h]

theorem getPixel_eq_testBit (w : Nat) (buf : List Nat) (x y : Nat) :
    getPixel w buf x y =
      if (byteGet buf (x / 8 + y * (w / 8))).testBit (7 - x % 8) then 1 else 0 := by
  unfold getPixel
  exact shiftRight_and_one _ _

theorem getPixel_le_one (w : Nat) (buf : List Nat) (x y : Nat) :
    getPixel w buf x y ≤ 1 :=
  Nat.and_le_right

theorem byteGet_set_eq {buf : List Nat} {i : Nat} (v : Nat) (h : i < buf.length) :
    byteGet (buf.set i v) i = v := by
  rw [byteGet, List.getD_eq_getElem?_getD, List.getElem?_set_self h]
  rfl

theorem byteGet_set_ne {i j : Nat} (buf : List Nat) (v : Nat) (h : i ≠ j) :
    byteGet (buf.set i v) j = byteGet buf j := by
  rw [byteGet, byteGet, List.getD_eq_getElem?_getD, List.getD_eq_getElem?_getD,
    List.getElem?_set_ne h]

theorem length_writePixel (w : Nat) (buf : List Nat) (tx ty pix : Nat) :
    (writePixel w buf tx ty pix).length = buf.length := by
  unfold writePixel
  split <;> exact List.length_set ..

theorem testBit_255 {k : Nat} (h : k < 8) : (255 : Nat).testBit k = true := by
  interval_cases k <;> decide

theorem getPixel_writePixel_same (w : Nat) (buf : List Nat) (tx ty pix : Nat)
    (hpix : pix ≤ 1) (hd : tx / 8 + ty * (w / 8) < buf.length) :
    getPixel w (writePixel w buf tx ty pix) tx ty = pix := by
  have hdb : 7 - tx % 8 < 8 := by omega
  rw [getPixel_eq_testBit]
  unfold writePixel
  interval_cases pix
  · simp only [ne_eq, not_true_eq_false, if_neg, reduceIte]
    rw [byteGet_set_eq _ hd, Nat.one_shiftLeft, Nat.testBit_and, Nat.testBit_xor,
      Nat.testBit_two_pow_self, testBit_255 hdb]
    simp
  · simp only [ne_eq, one_ne_zero, not_false_eq_true, if_pos, reduceIte]
    rw [byteGet_set_eq _ hd, Nat.one_shiftLeft, Nat.testBit_or, Nat.testBit_two_pow_self]
    simp

theorem getPixel_writePixel_ne (w : Nat) (buf : List Nat) (tx ty pix a b : Nat)
    (h : slotNe w (tx, ty) (a, b)) :
    getPixel w (writePixel w buf tx ty pix) a b = getPixel w buf a b := by
  have hdb' : 7 - a % 8 < 8 := by omega
  rw [getPixel_eq_testBit, getPixel_eq_testBit]
  unfold writePixel
  rcases h with h | h
  · split <;> rw [byteGet_set_ne _ _ h]
  · by_cases hi : tx / 8 + ty * (w / 8) = a / 8 + b * (w / 8)
    · by_cases hlen : tx / 8 + ty * (w / 8) < buf.length
      · rw [hi] at hlen ⊢
        split <;>
          rw [byteGet_set_eq _ hlen, Nat.one_shiftLeft] <;>
          [rw [Nat.testBit_or, Nat.testBit_two_pow_of_ne h];
           rw [Nat.testBit_and, Nat.testBit_xor, Nat.testBit_two_pow_of_ne h,
             testBit_255 hdb']] <;>
          simp
      · split <;> rw [List.set_eq_of_length_le (by omega)]
    · split <;> rw [byteGet_set_ne _ _ hi]

/-! ### The pixel loop as a fold over the pixel sequence -/

theorem showTransform_eq_foldl (w h : Nat) (fh fv : Bool) (rot : Nat) (src : List Nat) :
    showTransform w h fh fv rot src =
      (pixelSeq w h).foldl (transformStep w h fh fv rot src)
        (List.replicate src.length 0) := by
  rw [showTransform, pixelSeq, List.foldl_flatten, List.foldl_map]
  congr 1
  funext acc y
  rw [rowSeq, List.foldl_map]

theorem mem_pixelSeq {w h x y : Nat} : (x, y) ∈ pixelSeq w h ↔ x < w ∧ y < h := by
  simp only [pixelSeq, rowSeq, List.mem_flatten, List.mem_map, List.mem_range]
  constructor
  · rintro ⟨l, ⟨y', hy', rfl⟩, hm⟩
    rcases List.mem_map.1 hm with ⟨x', hx', hxy⟩
    rcases Prod.mk.injEq .. ▸ hxy with ⟨h1, h2⟩
    exact ⟨h1 ▸ List.mem_range.1 hx', h2 ▸ hy'⟩
  · rintro ⟨hx, hy⟩
    exact ⟨(List.range w).map (fun x => (x, y)), ⟨y, hy, rfl⟩,
      List.mem_map.2 ⟨x, List.mem_range.2 hx, rfl⟩⟩

theorem length_foldl_transformStep (w h : Nat) (fh fv : Bool) (rot : Nat)
    (src : List Nat) (L : List (Nat × Nat)) (init : List Nat) :
    (L.foldl (transformStep w h fh fv rot src) init).length = init.length := by
  induction L generalizing init with
  | nil => rfl
  | cons q L ih =>
    rw [List.foldl_cons, ih]
    unfold transformStep
    exact length_writePixel ..

theorem byteGet_lt_256 {buf : List Nat} (hb : ∀ b ∈ buf, b < 256) (i : Nat) :
    byteGet buf i < 256 := by
  by_cases h : i < buf.length
  · rw [byteGet, List.getD_eq_getElem _ _ h]
    exact hb _ (List.getElem_mem h)
  · rw [byteGet, List.getD_eq_default _ _ (by omega)]
    omega

theorem writePixel_lt_256 {w : Nat} {buf : List Nat} (hb : ∀ b ∈ buf, b < 256)
    (tx ty pix : Nat) : ∀ b ∈ writePixel w buf tx ty pix, b < 256 := by
  have hpow : (256 : Nat) = 2 ^ 8 := by norm_num
  have hsh : (1 <<< (7 - tx % 8)) < 256 := by
    rw [Nat.one_shiftLeft, hpow]
    exact Nat.pow_lt_pow_right (by omega) (by omega)
  intro b hmem
  unfold writePixel at hmem
  split at hmem <;> rcases List.mem_or_eq_of_mem_set hmem with h | rfl
  · exact hb _ h
  · rw [hpow]
    exact Nat.or_lt_two_pow (hpow ▸ byteGet_lt_256 hb _) (hpow ▸ hsh)
  · exact hb _ h
  · exact lt_of_le_of_lt Nat.and_le_left (byteGet_lt_256 hb _)

theorem foldl_transformStep_lt_256 (w h : Nat) (fh fv : Bool) (rot : Nat)
    (src : List Nat) (L : List (Nat × Nat)) (init : List Nat)
    (hinit : ∀ b ∈ init, b < 256) :
    ∀ b ∈ L.foldl (transformStep w h fh fv rot src) init, b < 256 := by
  induction L generalizing init with
  | nil => exact hinit
  | cons q L ih =>
    rw [List.foldl_cons]
    refine ih _ ?_
    unfold transformStep
    exact writePixel_lt_256 hinit _ _ _

theorem getPixel_foldl_notmem (w h : Nat) (fh fv : Bool) (rot : Nat)
    (src : List Nat) (L : List (Nat × Nat)) (init : List Nat) (a b : Nat)
    (hL : ∀ p ∈ L, slotNe w (transformCoord w h fh fv rot p.1 p.2) (a, b)) :
    getPixel w (L.foldl (transformStep w h fh fv rot src) init) a b =
      getPixel w init a b := by
  induction L generalizing init with
  | nil => rfl
  | cons q L ih =>
    rw [List.foldl_cons, ih _ (fun p hp => hL p (List.mem_cons_of_mem _ hp))]
    unfold transformStep
    exact getPixel_writePixel_ne _ _ _ _ _ _ _ (hL q (List.mem_cons_self _ _))

theorem getPixel_foldl_mem (w h : Nat) (fh fv : Bool) (rot : Nat)
    (src : List Nat) (L : List (Nat × Nat)) (init : List Nat) (p₀ : Nat × Nat)
    (hmem : p₀ ∈ L)
    (hdist : ∀ p ∈ L, p ≠ p₀ →
      slotNe w (transformCoord w h fh fv rot p.1 p.2)
        (transformCoord w h fh fv rot p₀.1 p₀.2))
    (hd : (transformCoord w h fh fv rot p₀.1 p₀.2).1 / 8 +
        (transformCoord w h fh fv rot p₀.1 p₀.2).2 * (w / 8) < init.length) :
    getPixel w (L.foldl (transformStep w h fh fv rot src) init)
        (transformCoord w h fh fv rot p₀.1 p₀.2).1
        (transformCoord w h fh fv rot p₀.1 p₀.2).2 =
      getPixel w src p₀.1 p₀.2 := by
  induction L generalizing init with
  | nil => exact absurd hmem (List.not_mem_nil _)
  | cons q L ih =>
    rw [List.foldl_cons]
    by_cases hq : p₀ ∈ L
    · refine ih _ hq (fun p hp hne => hdist p (List.mem_cons_of_mem _ hp) hne) ?_
      unfold transformStep
      rw [length_writePixel]
      exact hd
    · have hq0 : q = p₀ := by
        rcases List.mem_cons.1 hmem with h | h
        · exact h.symm
        · exact absurd h hq
      subst hq0
      have hnot := getPixel_foldl_notmem w h fh fv rot src L
        (transformStep w h fh fv rot src init q)
        (transformCoord w h fh fv rot q.1 q.2).1
        (transformCoord w h fh fv rot q.1 q.2).2
        (fun p hp => hdist p (List.mem_cons_of_mem _ hp) (fun hc => hq (hc ▸ hp)))
      rw [hnot]
      unfold transformStep
      exact getPixel_writePixel_same _ _ _ _ _ (getPixel_le_one ..) hd

/-! ### Packing arithmetic: slots are injective and in range -/

theorem slot_inj {w x y x' y' : Nat} (hw : 8 ∣ w) (hx : x < w) (hx' : x' < w)
    (hb : 7 - x % 8 = 7 - x' % 8)
    (hi : x / 8 + y * (w / 8) = x' / 8 + y' * (w / 8)) : x = x' ∧ y = y' := by
  obtain ⟨k, rfl⟩ := hw
  have hdiv : 8 * k / 8 = k := by omega
  have hxk : x / 8 < k := by omega
  have hx'k : x' / 8 < k := by omega
  rw [hdiv] at hi
  have hkpos : 0 < k := by omega
  have hmod := congrArg (· % k) hi
  simp only [Nat.add_mul_mod_self_right] at hmod
  rw [Nat.mod_eq_of_lt hxk, Nat.mod_eq_of_lt hx'k] at hmod
  have hy : y * k = y' * k := by omega
  have hyy : y = y' := Nat.eq_of_mul_eq_mul_right hkpos hy
  exact ⟨by omega, hyy⟩

theorem slot_lt {w h x y : Nat} (hw : 8 ∣ w) (hx : x < w) (hy : y < h) :
    x / 8 + y * (w / 8) < w * h / 8 := by
  obtain ⟨k, rfl⟩ := hw
  have hdiv : 8 * k / 8 = k := by omega
  have hlen : 8 * k * h / 8 = k * h := by
    rw [Nat.mul_assoc, Nat.mul_div_cancel_left _ (by norm_num)]
  rw [hdiv, hlen]
  have h1 : x / 8 < k := by omega
  calc x / 8 + y * k < k + y * k := by omega
    _ = (y + 1) * k := by ring
    _ ≤ h * k := Nat.mul_le_mul_right _ (by omega)
    _ = k * h := Nat.mul_comm _ _

theorem getPixel_coord_of_byte {w h : Nat} (hw : 8 ∣ w) (buf : List Nat)
    {i k : Nat} (hi : i < w * h / 8) (hk : k < 8) :
    getPixel w buf (8 * (i % (w / 8)) + (7 - k)) (i / (w / 8)) =
      if (byteGet buf i).testBit k then 1 else 0 := by
  obtain ⟨m, rfl⟩ := hw
  have hdiv : 8 * m / 8 = m := by omega
  have hlen : 8 * m * h / 8 = m * h := by
    rw [Nat.mul_assoc, Nat.mul_div_cancel_left _ (by norm_num)]
  rw [hlen] at hi
  have hm : 0 < m := by
    rcases Nat.eq_zero_or_pos m with h0 | h0
    · subst h0; omega
    · exact h0
  rw [getPixel_eq_testBit, hdiv]
  have e1 : (8 * (i % m) + (7 - k)) / 8 = i % m := by omega
  have e2 : 7 - (8 * (i % m) + (7 - k)) % 8 = k := by omega
  rw [e1, e2, Nat.mod_add_div' i m]

theorem coord_of_byte_lt {w h : Nat} (hw : 8 ∣ w) {i k : Nat}
    (hi : i < w * h / 8) (hk : k < 8) :
    8 * (i % (w / 8)) + (7 - k) < w ∧ i / (w / 8) < h := by
  obtain ⟨m, rfl⟩ := hw
  have hdiv : 8 * m / 8 = m := by omega
  have hlen : 8 * m * h / 8 = m * h := by
    rw [Nat.mul_assoc, Nat.mul_div_cancel_left _ (by norm_num)]
  rw [hlen] at hi
  have hm : 0 < m := by
    rcases Nat.eq_zero_or_pos m with h0 | h0
    · subst h0; omega
    · exact h0
  rw [hdiv]
  constructor
  · have : i % m < m := Nat.mod_lt _ hm
    omega
  · rw [Nat.div_lt_iff_lt_mul hm]
    calc i < m * h := hi
      _ = h * m := Nat.mul_comm _ _

theorem byte_eq_of_testBit_lt_256 {a b : Nat} (hA : a < 256) (hB : b < 256)
    (h : ∀ k, k < 8 → a.testBit k = b.testBit k) : a = b := by
  apply Nat.eq_of_testBit_eq
  intro i
  by_cases hi : i < 8
  · exact h i hi
  · have h8 : (256 : Nat) ≤ 2 ^ i := by
      calc (256 : Nat) = 2 ^ 8 := by norm_num
        _ ≤ 2 ^ i := Nat.pow_le_pow_right (by omega) (by omega)
    rw [Nat.testBit_lt_two_pow (by omega), Nat.testBit_lt_two_pow (by omega)]

theorem buffers_eq_of_getPixel_eq {w h : Nat} (hw : 8 ∣ w) {A B : List Nat}
    (hA : A.length = w * h / 8) (hB : B.length = w * h / 8)
    (hA256 : ∀ b ∈ A, b < 256) (hB256 : ∀ b ∈ B, b < 256)
    (hpix : ∀ x y, x < w → y < h → getPixel w A x y = getPixel w B x y) :
    A = B := by
  apply List.ext_getElem (by omega)
  intro i h1 h2
  have hi : i < w * h / 8 := by omega
  have hbg : byteGet A i = byteGet B i := by
    apply byte_eq_of_testBit_lt_256 (byteGet_lt_256 hA256 i) (byteGet_lt_256 hB256 i)
    intro k hk
    obtain ⟨hx, hy⟩ := coord_of_byte_lt hw hi hk
    have hpx := hpix _ _ hx hy
    rw [getPixel_coord_of_byte hw A hi hk, getPixel_coord_of_byte hw B hi hk] at hpx
    by_cases hA' : (byteGet A i).testBit k <;> by_cases hB' : (byteGet B i).testBit k <;>
      simp [hA', hB'] at hpx ⊢
  rw [byteGet, byteGet, List.getD_eq_getElem _ _ h1, List.getD_eq_getElem _ _ h2] at hbg
  exact hbg

/-! ### Characterizing the output of the orientation transform -/

theorem length_showTransform (w h : Nat) (fh fv : Bool) (rot : Nat) (src : List Nat) :
    (showTransform w h fh fv rot src).length = src.length := by
  rw [showTransform_eq_foldl, length_foldl_transformStep, List.length_replicate]

theorem showTransform_lt_256 (w h : Nat) (fh fv : Bool) (rot : Nat) (src : List Nat) :
    ∀ b ∈ showTransform w h fh fv rot src, b < 256 := by
  rw [showTransform_eq_foldl]
  refine foldl_transformStep_lt_256 _ _ _ _ _ _ _ _ ?_
  intro b hb
  rw [List.eq_of_mem_replicate hb]
  omega

theorem getPixel_showTransform (w h : Nat) (fh fv : Bool) (rot : Nat) (src : List Nat)
    (hw : 8 ∣ w) (hlen : src.length = w * h / 8)
    (hdom : ∀ x y, x < w → y < h →
      (transformCoord w h fh fv rot x y).1 < w ∧ (transformCoord w h fh fv rot x y).2 < h)
    (hinj : ∀ x y x' y', x < w → y < h → x' < w → y' < h →
      transformCoord w h fh fv rot x y = transformCoord w h fh fv rot x' y' →
      x = x' ∧ y = y')
    {x y : Nat} (hx : x < w) (hy : y < h) :
    getPixel w (showTransform w h fh fv rot src)
        (transformCoord w h fh fv rot x y).1 (transformCoord w h fh fv rot x y).2 =
      getPixel w src x y := by
  rw [showTransform_eq_foldl]
  refine getPixel_foldl_mem w h fh fv rot src _ _ (x, y)
    (mem_pixelSeq.2 ⟨hx, hy⟩) ?_ ?_
  · rintro ⟨a, b⟩ hp hne
    obtain ⟨ha, hb⟩ := mem_pixelSeq.1 hp
    by_contra hcon
    unfold slotNe at hcon
    push_neg at hcon
    obtain ⟨h1, h2⟩ := hcon
    obtain ⟨hta, htb⟩ := hdom a b ha hb
    obtain ⟨htx, hty⟩ := hdom x y hx hy
    obtain ⟨e1, e2⟩ := slot_inj hw hta htx h2 h1
    have heq : transformCoord w h fh fv rot a b = transformCoord w h fh fv rot x y :=
      Prod.ext_iff.2 ⟨e1, e2⟩
    obtain ⟨rfl, rfl⟩ := hinj a b x y ha hb hx hy heq
    exact hne rfl
  · rw [List.length_replicate, hlen]
    obtain ⟨htx, hty⟩ := hdom x y hx hy
    exact slot_lt hw htx hty

/-! ### The transform coordinate map: domain preservation and involutivity -/

theorem tc_dom_of (w h : Nat) (fh fv : Bool) (rot : Nat)
    (hcond : rot = 0 ∨ rot = 180 ∨ (w = h ∧ (rot = 90 ∨ rot = 270)))
    (x y : Nat) (hx : x < w) (hy : y < h) :
    (transformCoord w h fh fv rot x y).1 < w ∧
      (transformCoord w h fh fv rot x y).2 < h := by
  rcases hcond with rfl | rfl | ⟨rfl, rfl | rfl⟩ <;>
    cases fh <;> cases fv <;> simp [transformCoord] <;> omega

theorem tc_inv_of (w h : Nat) (fh fv : Bool) (rot : Nat)
    (hcond : rot = 0 ∨ rot = 180 ∨ (w = h ∧ (rot = 90 ∨ rot = 270) ∧ fh ≠ fv))
    (x y : Nat) (hx : x < w) (hy : y < h) :
    transformCoord w h fh fv rot (transformCoord w h fh fv rot x y).1
      (transformCoord w h fh fv rot x y).2 = (x, y) := by
  rcases hcond with rfl | rfl | ⟨rfl, hrot, hne⟩
  · cases fh <;> cases fv <;> simp [transformCoord] <;> omega
  · cases fh <;> cases fv <;> simp [transformCoord] <;> omega
  · rcases hrot with rfl | rfl <;> cases fh <;> cases fv <;>
      simp at hne <;> simp [transformCoord] <;> omega

theorem tc_inj_of_inv (w h : Nat) (fh fv : Bool) (rot : Nat)
    (hinv : ∀ x y, x < w → y < h →
      transformCoord w h fh fv rot (transformCoord w h fh fv rot x y).1
        (transformCoord w h fh fv rot x y).2 = (x, y)) :
    ∀ x y x' y', x < w → y < h → x' < w → y' < h →
      transformCoord w h fh fv rot x y = transformCoord w h fh fv rot x' y' →
      x = x' ∧ y = y' := by
  intro x y x' y' hx hy hx' hy' heq
  have h1 := hinv x y hx hy
  have h2 := hinv x' y' hx' hy'
  rw [heq, h2] at h1
  exact ⟨(congrArg Prod.fst h1).symm, (congrArg Prod.snd h1).symm⟩

/-! ### Identity and involution of the buffer-level transform -/

theorem showTransform_id (w h : Nat) (src : List Nat) (hw : 8 ∣ w)
    (hlen : src.length = w * h / 8) (hbytes : ∀ b ∈ src, b < 256) :
    showTransform w h false false 0 src = src := by
  have htc : ∀ x y : Nat, transformCoord w h false false 0 x y = (x, y) := by
    intro x y
    simp [transformCoord]
  have hdom : ∀ x y, x < w → y < h →
      (transformCoord w h false false 0 x y).1 < w ∧
        (transformCoord w h false false 0 x y).2 < h :=
    tc_dom_of w h false false 0 (Or.inl rfl)
  have hinv := tc_inv_of w h false false 0 (Or.inl rfl)
  have hinj := tc_inj_of_inv w h false false 0 hinv
  refine buffers_eq_of_getPixel_eq hw ?_ hlen
    (showTransform_lt_256 w h false false 0 src) hbytes ?_
  · rw [length_showTransform, hlen]
  · intro x y hx hy
    have hch := getPixel_showTransform w h false false 0 src hw hlen hdom hinj hx hy
    rw [htc x y] at hch
    exact hch

theorem showTransform_twice (w h : Nat) (fh fv : Bool) (rot : Nat) (src : List Nat)
    (hw : 8 ∣ w) (hlen : src.length = w * h / 8) (hbytes : ∀ b ∈ src, b < 256)
    (hdom : ∀ x y, x < w → y < h →
      (transformCoord w h fh fv rot x y).1 < w ∧
        (transformCoord w h fh fv rot x y).2 < h)
    (hinv : ∀ x y, x < w → y < h →
      transformCoord w h fh fv rot (transformCoord w h fh fv rot x y).1
        (transformCoord w h fh fv rot x y).2 = (x, y)) :
    showTransform w h fh fv rot (showTransform w h fh fv rot src) = src := by
  have hinj := tc_inj_of_inv w h fh fv rot hinv
  have hlen2 : (showTransform w h fh fv rot src).length = w * h / 8 := by
    rw [length_showTransform, hlen]
  refine buffers_eq_of_getPixel_eq hw ?_ hlen
    (showTransform_lt_256 _ _ _ _ _ _) hbytes ?_
  · rw [length_showTransform, hlen2]
  · intro x y hx hy
    obtain ⟨hpx, hpy⟩ := hdom x y hx hy
    have c1 := getPixel_showTransform w h fh fv rot (showTransform w h fh fv rot src)
      hw hlen2 hdom hinj hpx hpy
    rw [hinv x y hx hy] at c1
    have c2 := getPixel_showTransform w h fh fv rot src hw hlen hdom hinj hx hy
    exact c1.trans c2

/-! ### Claim theorems for the orientation transform -/

/-- C3: when rotation is 0 and both flips are false, the orientation
transform computed inside `show` is the identity: for every canvas
buffer (of the constructed `width*height/8` length, with byte-aligned
width and `bytearray` byte values), the transformed output buffer equals
the source buffer bit-for-bit. -/
theorem C3_transform_identity (w h : Nat) (src : List Nat) (hw : 8 ∣ w)
    (hlen : src.length = w * h / 8) (hbytes : ∀ b ∈ src, b < 256) :
    showTransform w h false false 0 src = src :=
  showTransform_id w h src hw hlen hbytes

theorem C3_transform_identity_witness :
    showTransform 8 8 false false 0 [0x12, 0x34, 0x56, 0x78, 0x9A, 0xBC, 0xDE, 0xF0] =
      [0x12, 0x34, 0x56, 0x78, 0x9A, 0xBC, 0xDE, 0xF0] :=
  C3_transform_identity 8 8 _ (by decide) (by decide) (by decide)

/-- C4: applying the orientation transform with rotation=180 and no
flips twice in succession returns the original pixel buffer bit-for-bit,
for every canvas buffer. -/
theorem C4_rotate180_involution (w h : Nat) (src : List Nat) (hw : 8 ∣ w)
    (hlen : src.length = w * h / 8) (hbytes : ∀ b ∈ src, b < 256) :
    showTransform w h false false 180 (showTransform w h false false 180 src) = src :=
  showTransform_twice w h false false 180 src hw hlen hbytes
    (tc_dom_of w h false false 180 (Or.inr (Or.inl rfl)))
    (tc_inv_of w h false false 180 (Or.inr (Or.inl rfl)))

theorem C4_rotate180_involution_witness :
    showTransform 8 8 false false 180 (showTransform 8 8 false false 180
      [0x12, 0x34, 0x56, 0x78, 0x9A, 0xBC, 0xDE, 0xF0]) =
      [0x12, 0x34, 0x56, 0x78, 0x9A, 0xBC, 0xDE, 0xF0] :=
  C4_rotate180_involution 8 8 _ (by decide) (by decide) (by decide)

/-- C5 counterexample: with rotation=90 and no flips (flip∘flip trivially
reapplied), transforming an 8x8 buffer carrying a single set pixel twice
does not return the original buffer: the double transform is a 180°
rotation, not the identity. -/
theorem C5_counterexample :
    ¬ (showTransform 8 8 false false 90 (showTransform 8 8 false false 90
        [128, 0, 0, 0, 0, 0, 0, 0]) = [128, 0, 0, 0, 0, 0, 0, 0]) := by decide

/-- C5 amended: applying the orientation transform twice with the same
flip settings is the identity on pixel data when rotation is 0 or 180
(for every flip combination), and, on the square panels the transform
targets, when rotation is 90 or 270 combined with exactly one flip; for
rotation 90/270 with both flips equal the double transform is a 180°
rotation instead (see the counterexample). -/
theorem C5_amended_double_transform (w h : Nat) (fh fv : Bool) (rot : Nat)
    (src : List Nat) (hw : 8 ∣ w) (hlen : src.length = w * h / 8)
    (hbytes : ∀ b ∈ src, b < 256)
    (hcond : rot = 0 ∨ rot = 180 ∨ (w = h ∧ (rot = 90 ∨ rot = 270) ∧ fh ≠ fv)) :
    showTransform w h fh fv rot (showTransform w h fh fv rot src) = src := by
  refine showTransform_twice w h fh fv rot src hw hlen hbytes
    (tc_dom_of w h fh fv rot ?_) (tc_inv_of w h fh fv rot hcond)
  rcases hcond with hc | hc | ⟨h1, h2, _⟩
  · exact Or.inl hc
  · exact Or.inr (Or.inl hc)
  · exact Or.inr (Or.inr ⟨h1, h2⟩)

theorem C5_amended_double_transform_witness :
    showTransform 8 8 true false 90 (showTransform 8 8 true false 90
      [0x12, 0x34, 0x56, 0x78, 0x9A, 0xBC, 0xDE, 0xF0]) =
      [0x12, 0x34, 0x56, 0x78, 0x9A, 0xBC, 0xDE, 0xF0] :=
  C5_amended_double_transform 8 8 true false 90 _ (by decide) (by decide) (by decide)
    (by simp)

/-- C6: on a 200×200 panel with rotation=90 and no flips, the transform
maps logical (0,0) to physical (0,199) and logical (199,0) to physical
(0,0). -/
theorem C6_rotation90_corners :
    transformCoord 200 200 false false 90 0 0 = (0, 199) ∧
      transformCoord 200 200 false false 90 199 0 = (0, 0) := by decide

/-! ### Unfolding lemmas for `show` and `clear` -/

theorem epdShow_not_dirty (st : EPDState) (m : Bool) (hd : st.dirty = false) :
    epdShow st m = (st, []) := by
  unfold epdShow
  rw [if_pos hd]

theorem epdShow_dirty (st : EPDState) (m : Bool) (hd : st.dirty = true) :
    epdShow st m =
      ({ st with dirty := false },
       [BusEvent.cmd 0x24,
        BusEvent.dataBuf (showTransform st.width st.height st.flip_horizontal
          st.flip_vertical st.rotation st.buffer),
        BusEvent.cmd 0x22, BusEvent.dataByte (if m then 0xFF else 0xF7),
        BusEvent.cmd 0x20, BusEvent.busyWait]) := by
  unfold epdShow
  rw [if_neg (by rw [hd]; simp)]

theorem epdShow_dirty_after (st : EPDState) (m : Bool) :
    (epdShow st m).1.dirty = false := by
  by_cases hd : st.dirty = false
  · rw [epdShow_not_dirty st m hd]
    exact hd
  · rw [epdShow_dirty st m (by revert hd; cases st.dirty <;> simp)]

theorem clear_eq (st : EPDState) (c : Nat) :
    clear st c =
      ({ st with buffer := List.replicate st.buffer.length c, dirty := false },
       [BusEvent.cmd 0x24,
        BusEvent.dataBuf (showTransform st.width st.height st.flip_horizontal
          st.flip_vertical st.rotation (List.replicate st.buffer.length c)),
        BusEvent.cmd 0x22, BusEvent.dataByte 0xF7,
        BusEvent.cmd 0x20, BusEvent.busyWait]) := by
  unfold clear
  rw [epdShow_dirty _ _ rfl]
  rfl

/-! ### Claim theorems for the dirty/refresh policy -/

/-- C1 counterexample: after a call to `clear` the DirtyFlag is false,
not true: `clear` sets the flag and then internally calls `show`, which
clears it again. -/
theorem C1_counterexample : (clear st8 0xFF).1.dirty = false := by decide

/-- C1 amended: after any call to `draw_text`, `draw_rect`,
`draw_fill_rect`, `draw_line`, a successful `draw_image` or `load_pbm`,
a `set_rotation` with a valid angle, or `set_flip`, the DirtyFlag is
true; `clear` sets the flag but then internally invokes `show`, so after
`clear` returns the DirtyFlag is false; after a `show` call that
completes successfully the DirtyFlag is false; when the DirtyFlag is
false, `show(mode)` returns immediately performing no bus I/O, so two
consecutive `show` calls with no intervening mutation perform bus I/O
only on the first. -/
theorem C1_amended_dirty_policy (st : EPDState) :
    (∀ f : List Nat → List Nat, (draw_text f st).dirty = true) ∧
    (∀ f : List Nat → List Nat, (draw_rect f st).dirty = true) ∧
    (∀ f : List Nat → List Nat, (draw_fill_rect f st).dirty = true) ∧
    (∀ f : List Nat → List Nat, (draw_line f st).dirty = true) ∧
    (∀ buf : List Nat, (draw_image st buf).2 = none → (draw_image st buf).1.dirty = true) ∧
    (∀ f : PBMFile, (load_pbm st f).2 = none → (load_pbm st f).1.dirty = true) ∧
    (∀ a : Nat, (set_rotation st a).2 = none → (set_rotation st a).1.dirty = true) ∧
    (∀ hz vt : Bool, (set_flip st hz vt).dirty = true) ∧
    (∀ c : Nat, (clear st c).1.dirty = false) ∧
    (∀ m : Bool, (epdShow st m).1.dirty = false) ∧
    (st.dirty = false → ∀ m : Bool, epdShow st m = (st, [])) ∧
    (∀ m1 m2 : Bool, (epdShow (epdShow st m1).1 m2).2 = []) := by
  refine ⟨fun f => rfl, fun f => rfl, fun f => rfl, fun f => rfl, ?_, ?_, ?_,
    fun hz vt => rfl, ?_, ?_, ?_, ?_⟩
  · intro buf hok
    unfold draw_image at hok ⊢
    by_cases hb : buf.length ≠ st.buffer.length
    · rw [if_pos hb] at hok
      exact absurd hok (by simp)
    · rw [if_neg hb]
  · intro f hok
    unfold load_pbm at hok ⊢
    by_cases h1 : f.magic ≠ [0x50, 0x34]
    · rw [if_pos h1] at hok
      exact absurd hok (by simp)
    · rw [if_neg h1] at hok ⊢
      by_cases h2 : f.width ≠ st.width ∨ f.height ≠ st.height
      · rw [if_pos h2] at hok
        exact absurd hok (by simp)
      · rw [if_neg h2]
  · intro a hok
    unfold set_rotation at hok ⊢
    by_cases ha : a = 0 ∨ a = 90 ∨ a = 180 ∨ a = 270
    · rw [if_pos ha]
    · rw [if_neg ha] at hok
      exact absurd hok (by simp)
  · intro c
    rw [clear_eq]
  · intro m
    exact epdShow_dirty_after st m
  · intro hdf m
    exact epdShow_not_dirty st m hdf
  · intro m1 m2
    rw [epdShow_not_dirty _ m2 (epdShow_dirty_after st m1)]

theorem C1_amended_dirty_policy_witness :
    (set_flip st8 true false).dirty = true ∧
      (clear st8 0x00).1.dirty = false ∧
      (set_rotation st8 90).1.dirty = true ∧
      (epdShow (epdShow st8 true).1 false).2 = ([] : List BusEvent) := by
  obtain ⟨_, _, _, _, _, _, h7, h8, h9, _, _, h12⟩ := C1_amended_dirty_policy st8
  exact ⟨h8 true false, h9 0x00, h7 90 (by decide), h12 true false⟩

/-- C2 counterexample: calling `clear(0xFF)` and then `show(Full)` on a
concrete 8×8 driver produces no bus I/O at all during that `show` call
(in particular neither the 0x24 RAM write nor the 0x22/0xF7 update
control): `clear` already performed the refresh internally and left the
DirtyFlag false, so the subsequent `show` returns immediately. -/
theorem C2_counterexample :
    (epdShow (clear st8 0xFF).1 false).2 = ([] : List BusEvent) := by decide

/-- C2 amended: the all-0xFF RAM-write payload (opcode 0x24) and the
display-update-control 0x22 with full-refresh waveform byte 0xF7 are
produced during the `clear(0xFF)` call itself (whose internal `show`
runs with `partial=False`); the subsequent explicit `show` call finds
the DirtyFlag false and performs no bus I/O. -/
theorem C2_amended_clear_full_refresh (st : EPDState)
    (hw : 8 ∣ st.width) (hlen : st.buffer.length = st.width * st.height / 8)
    (hrot : st.rotation = 0) (hfh : st.flip_horizontal = false)
    (hfv : st.flip_vertical = false) :
    (clear st 0xFF).2 =
      [BusEvent.cmd 0x24,
       BusEvent.dataBuf (List.replicate st.buffer.length 0xFF),
       BusEvent.cmd 0x22, BusEvent.dataByte 0xF7,
       BusEvent.cmd 0x20, BusEvent.busyWait] ∧
    (epdShow (clear st 0xFF).1 false).2 = ([] : List BusEvent) := by
  constructor
  · rw [clear_eq st 0xFF, hrot, hfh, hfv,
      showTransform_id st.width st.height _ hw (by rw [List.length_replicate, hlen])
        (fun b hb => by rw [List.eq_of_mem_replicate hb]; omega)]
  · have hdone : (clear st 0xFF).1.dirty = false := by
      rw [clear_eq]
    rw [epdShow_not_dirty _ false hdone]

theorem C2_amended_clear_full_refresh_witness :
    (clear st8 0xFF).2 =
      [BusEvent.cmd 0x24,
       BusEvent.dataBuf (List.replicate (st8.buffer.length) 0xFF),
       BusEvent.cmd 0x22, BusEvent.dataByte 0xF7,
       BusEvent.cmd 0x20, BusEvent.busyWait] ∧
    (epdShow (clear st8 0xFF).1 false).2 = ([] : List BusEvent) :=
  C2_amended_clear_full_refresh st8 (by decide) (by decide) rfl rfl rfl

/-! ### Claim theorems for the validating operations -/

/-- C9: `load_pbm` rejects a wrong magic token with the format error and
a dimension mismatch with the size-mismatch error, leaving the whole
driver state (in particular the canvas buffer) unchanged; on success it
copies the file's raw bytes into the canvas buffer and sets the
DirtyFlag. -/
theorem C9_load_pbm_validation (st : EPDState) (f : PBMFile) :
    (f.magic ≠ [0x50, 0x34] →
      (load_pbm st f).2 = some "Unsupported PBM format" ∧ (load_pbm st f).1 = st) ∧
    (f.magic = [0x50, 0x34] → (f.width ≠ st.width ∨ f.height ≠ st.height) →
      (load_pbm st f).2 = some "Image size mismatch" ∧ (load_pbm st f).1 = st) ∧
    (f.magic = [0x50, 0x34] → f.width = st.width → f.height = st.height →
      (load_pbm st f).2 = none ∧
      (load_pbm st f).1.buffer = f.data.take (st.width * st.height / 8) ∧
      (f.data.length = st.width * st.height / 8 → (load_pbm st f).1.buffer = f.data) ∧
      (load_pbm st f).1.dirty = true) := by
  refine ⟨?_, ?_, ?_⟩
  · intro h1
    unfold load_pbm
    rw [if_pos h1]
    exact ⟨rfl, rfl⟩
  · intro h1 h2
    unfold load_pbm
    rw [if_neg (by simp [h1]), if_pos h2]
    exact ⟨rfl, rfl⟩
  · intro h1 h2 h3
    unfold load_pbm
    rw [if_neg (by simp [h1]), if_neg (by simp [h2, h3])]
    refine ⟨rfl, rfl, ?_, rfl⟩
    intro hlen
    show f.data.take (st.width * st.height / 8) = f.data
    rw [← hlen, List.take_length]

theorem C9_load_pbm_validation_witness :
    (load_pbm st8 ⟨[0x50, 0x35], 8, 8, []⟩).2 = some "Unsupported PBM format" ∧
    (load_pbm st8 ⟨[0x50, 0x34], 4, 8, []⟩).2 = some "Image size mismatch" ∧
    (load_pbm st8 ⟨[0x50, 0x34], 4, 8, []⟩).1 = st8 ∧
    (load_pbm st8 ⟨[0x50, 0x34], 8, 8, List.replicate 8 0xAA⟩).2 = none ∧
    (load_pbm st8 ⟨[0x50, 0x34], 8, 8, List.replicate 8 0xAA⟩).1.buffer =
      List.replicate 8 0xAA ∧
    (load_pbm st8 ⟨[0x50, 0x34], 8, 8, List.replicate 8 0xAA⟩).1.dirty = true := by
  refine ⟨((C9_load_pbm_validation st8 _).1 (by decide)).1,
    ((C9_load_pbm_validation st8 _).2.1 rfl (Or.inl (by decide))).1,
    ((C9_load_pbm_validation st8 _).2.1 rfl (Or.inl (by decide))).2,
    ((C9_load_pbm_validation st8 _).2.2 rfl rfl rfl).1,
    ((C9_load_pbm_validation st8 _).2.2 rfl rfl rfl).2.2.1 (by decide),
    ((C9_load_pbm_validation st8 _).2.2 rfl rfl rfl).2.2.2⟩

/-- C10: `draw_image` with a buffer of the wrong length fails with the
size-mismatch error leaving the whole driver state (canvas buffer and
DirtyFlag included) unchanged; with the right length it replaces the
canvas buffer wholesale and sets the DirtyFlag. -/
theorem C10_draw_image_validation (st : EPDState) (buf : List Nat) :
    (buf.length ≠ st.buffer.length →
      (draw_image st buf).2 = some "Image buffer size mismatch" ∧
      (draw_image st buf).1 = st) ∧
    (buf.length = st.buffer.length →
      (draw_image st buf).2 = none ∧
      (draw_image st buf).1.buffer = buf ∧
      (draw_image st buf).1.dirty = true) := by
  constructor
  · intro h
    unfold draw_image
    rw [if_pos h]
    exact ⟨rfl, rfl⟩
  · intro h
    unfold draw_image
    rw [if_neg (by simp [h])]
    exact ⟨rfl, rfl, rfl⟩

theorem C10_draw_image_validation_witness :
    (draw_image st8 [1, 2, 3]).2 = some "Image buffer size mismatch" ∧
    (draw_image st8 [1, 2, 3]).1 = st8 ∧
    (draw_image st8 (List.replicate 8 0x55)).2 = none ∧
    (draw_image st8 (List.replicate 8 0x55)).1.buffer = List.replicate 8 0x55 ∧
    (draw_image st8 (List.replicate 8 0x55)).1.dirty = true := by
  refine ⟨((C10_draw_image_validation st8 _).1 (by decide)).1,
    ((C10_draw_image_validation st8 _).1 (by decide)).2,
    ((C10_draw_image_validation st8 _).2 (by decide)).1,
    ((C10_draw_image_validation st8 _).2 (by decide)).2.1,
    ((C10_draw_image_validation st8 _).2 (by decide)).2.2⟩

/-! ### Claim theorems for the init sequence -/

/-- C7 counterexample: on a driver constructed with width 8 and height 8
the driver-output-control payload after opcode 0x01 is still the
hardcoded 0xC7 0x00 0x00, and 0xC7 does not encode height-1 = 7: the
init sequence does not encode the constructed panel height. -/
theorem C7_counterexample :
    epd_init 8 8 =
      [BusEvent.reset, BusEvent.busyWait,
       BusEvent.cmd 0x12, BusEvent.busyWait,
       BusEvent.cmd 0x01, BusEvent.dataByte 0xC7, BusEvent.dataByte 0x00,
       BusEvent.dataByte 0x00,
       BusEvent.cmd 0x11, BusEvent.dataByte 0x01,
       BusEvent.cmd 0x44, BusEvent.dataByte 0x00, BusEvent.dataByte 0x00,
       BusEvent.cmd 0x45, BusEvent.dataByte 0xC7, BusEvent.dataByte 0x00,
       BusEvent.dataByte 0x00, BusEvent.dataByte 0x00,
       BusEvent.cmd 0x3C, BusEvent.dataByte 0x01,
       BusEvent.cmd 0x18, BusEvent.dataByte 0x80,
       BusEvent.cmd 0x22, BusEvent.dataByte 0xB1,
       BusEvent.cmd 0x20, BusEvent.busyWait] ∧
    (0xC7 : Nat) ≠ 8 - 1 :=
  ⟨by decide, by decide⟩

/-- C7 amended: for every constructed width and height, `init` issues,
in order: software reset 0x12 (after the reset pulse and a busy wait)
followed by a busy wait; driver-output-control 0x01 with the three
hardcoded payload bytes 0xC7 0x00 0x00 — which encode height-1 (low
byte, high byte) plus output-control flags only for the default height
200, not for the constructed height; data-entry-mode 0x11; RAM X window
0x44 (using the constructed width); RAM Y window 0x45 with four
hardcoded payload bytes; border-waveform 0x3C; temperature-sensor
control 0x18; display-update-control 0x22 with payload 0xB1; then
activate 0x20 followed by a busy wait. -/
theorem C7_amended_init_sequence (width height : Nat) :
    epd_init width height =
      [BusEvent.reset, BusEvent.busyWait,
       BusEvent.cmd 0x12, BusEvent.busyWait,
       BusEvent.cmd 0x01, BusEvent.dataByte 0xC7, BusEvent.dataByte 0x00,
       BusEvent.dataByte 0x00,
       BusEvent.cmd 0x11, BusEvent.dataByte 0x01,
       BusEvent.cmd 0x44, BusEvent.dataByte 0x00, BusEvent.dataByte (width / 8 - 1),
       BusEvent.cmd 0x45, BusEvent.dataByte 0xC7, BusEvent.dataByte 0x00,
       BusEvent.dataByte 0x00, BusEvent.dataByte 0x00,
       BusEvent.cmd 0x3C, BusEvent.dataByte 0x01,
       BusEvent.cmd 0x18, BusEvent.dataByte 0x80,
       BusEvent.cmd 0x22, BusEvent.dataByte 0xB1,
       BusEvent.cmd 0x20, BusEvent.busyWait] ∧
    (0xC7 : Nat) = 200 - 1 ∧ ((200 - 1 : Nat) / 256) = 0x00 := by
  refine ⟨?_, rfl, rfl⟩
  simp [epd_init, send_cmd, send_data]

/-! ### Claim theorems for the busy-wait loop -/

theorem wait_busy_go_step_timeout (busyAt : Nat → Nat) (T e : Nat)
    (h1 : busyAt e = 1) (h2 : T < e) :
    wait_busy_go busyAt T e = Except.error e := by
  rw [wait_busy_go.eq_def]
  simp [h1, h2]

theorem wait_busy_go_step_recurse (busyAt : Nat → Nat) (T e : Nat)
    (h1 : busyAt e = 1) (h2 : ¬ T < e) :
    wait_busy_go busyAt T e = wait_busy_go busyAt T (e + 50) := by
  conv_lhs => rw [wait_busy_go.eq_def]
  simp [h1, h2]

theorem wait_busy_go_step_done (busyAt : Nat → Nat) (T e : Nat)
    (h1 : busyAt e ≠ 1) :
    wait_busy_go busyAt T e = Except.ok () := by
  rw [wait_busy_go.eq_def]
  simp [h1]

theorem wait_busy_timeout_boundary (busyAt : Nat → Nat) (T : Nat)
    (hbusy : ∀ t, busyAt t = 1) :
    wait_busy busyAt T = Except.error (50 * (T / 50) + 50) := by
  have key : ∀ d e, 50 ∣ e → e ≤ 50 * (T / 50) + 50 → 50 * (T / 50) + 50 - e ≤ d →
      wait_busy_go busyAt T e = Except.error (50 * (T / 50) + 50) := by
    intro d
    induction d with
    | zero =>
      intro e hdvd hle hd
      have he : e = 50 * (T / 50) + 50 := by omega
      subst he
      exact wait_busy_go_step_timeout _ _ _ (hbusy _) (by omega)
    | succ d ih =>
      intro e hdvd hle hd
      by_cases hB : e = 50 * (T / 50) + 50
      · subst hB
        exact wait_busy_go_step_timeout _ _ _ (hbusy _) (by omega)
      · rw [wait_busy_go_step_recurse _ _ _ (hbusy _) (by omega)]
        exact ih (e + 50) (by omega) (by omega) (by omega)
  exact key (50 * (T / 50) + 50) 0 ⟨0, rfl⟩ (by omega) (by omega)

theorem wait_busy_deassert_ok (busyAt : Nat → Nat) (T : Nat) {t : Nat}
    (hdvd : 50 ∣ t) (hle : t ≤ T) (hval : busyAt t = 0) :
    wait_busy busyAt T = Except.ok () := by
  have key : ∀ d e, 50 ∣ e → e ≤ t → t - e ≤ d →
      wait_busy_go busyAt T e = Except.ok () := by
    intro d
    induction d with
    | zero =>
      intro e hdvd' hle' hd
      have he : e = t := by omega
      subst he
      exact wait_busy_go_step_done _ _ _ (by simp [hval])
    | succ d ih =>
      intro e hdvd' hle' hd
      by_cases hbe : busyAt e = 1
      · have hne : e ≠ t := by
          intro hc
          rw [hc, hval] at hbe
          omega
        rw [wait_busy_go_step_recurse _ _ _ hbe (by omega)]
        exact ih (e + 50) (by omega) (by omega) (by omega)
      · exact wait_busy_go_step_done _ _ _ hbe
  exact key t 0 ⟨0, rfl⟩ (by omega) (by omega)

/-- C8: with an always-asserted busy line, `wait_busy` raises the busy
timeout at (not before) the configured timeout boundary: the error fires
at the first 50 ms poll strictly past `timeout_ms` (so strictly after
the boundary but within one 50 ms poll period of it), on the fixed 50 ms
cadence; and when the busy line reads deasserted at some poll instant at
or before the deadline, `wait_busy` returns without error. -/
theorem C8_wait_busy_timing (busyAt : Nat → Nat) (timeout_ms : Nat) :
    ((∀ t, busyAt t = 1) →
      wait_busy busyAt timeout_ms = Except.error (50 * (timeout_ms / 50) + 50) ∧
      timeout_ms < 50 * (timeout_ms / 50) + 50 ∧
      50 * (timeout_ms / 50) + 50 ≤ timeout_ms + 50 ∧
      50 ∣ 50 * (timeout_ms / 50) + 50) ∧
    (∀ t, 50 ∣ t → t ≤ timeout_ms → busyAt t = 0 →
      wait_busy busyAt timeout_ms = Except.ok ()) := by
  constructor
  · intro hbusy
    exact ⟨wait_busy_timeout_boundary busyAt timeout_ms hbusy, by omega, by omega,
      ⟨timeout_ms / 50 + 1, by ring⟩⟩
  · intro t h1 h2 h3
    exact wait_busy_deassert_ok busyAt timeout_ms h1 h2 h3

theorem C8_wait_busy_timing_witness :
    wait_busy (fun _ => 1) 75 = Except.error 100 ∧
      wait_busy (fun t => if t < 100 then 1 else 0) 120 = Except.ok () := by
  constructor
  · have h := (C8_wait_busy_timing (fun _ => 1) 75).1 (fun t => rfl)
    simpa using h.1
  · exact (C8_wait_busy_timing (fun t => if t < 100 then 1 else 0) 120).2 100
      (by norm_num) (by norm_num) (by norm_num)

end Epaper
